import Mathlib

/-!
Verification of the producer/queue/collector core of
`dish_grpc_prometheus_exporter.py` (starlink-grpc-tools).

The Python source is shallowly embedded below.  Python dicts become
insertion-ordered association lists over `String` keys; Python values that
flow through the pipeline (None / bool / int / float / str) become the
`Value` inductive, with `int` and `float` collapsed into `ℚ` (the source
treats them identically via `type(v) == float or type(v) == int`).
Exceptions on the scrape path (the unguarded `metrics_data['id']`
subscript) become `Except Unit`.  Timestamps are `Int` (Unix seconds).
-/

namespace Starlink

/-- A Python runtime value as it appears in this pipeline: `None`, a bool,
a number (`int`/`float` collapsed to `ℚ`), or a string. -/
inductive Value where
  | none : Value
  | boolean : Bool → Value
  | number : ℚ → Value
  | string : String → Value
deriving DecidableEq

/-- One entry of `metrics_data`: the dict
`{'value': ..., 'text': ..., 'category': ...}` built by
`cb_data_add_item` (and by the fallback path of `loop_body`). -/
structure FieldData where
  value : Value
  text : String
  category : String
deriving DecidableEq

/-- Python dict lookup `d[k]` (as an `Option`): first entry with the key.
Keys produced by the embedded code are unique, so first-match agrees with
dict semantics. -/
def lookup {α : Type} : List (String × α) → String → Option α
  | [], _ => Option.none
  | p :: rest, k => if p.1 = k then some p.2 else lookup rest k

/-- Python dict assignment `d[k] = v`: replace the entry in place if the
key is present, otherwise append at the end (insertion order). -/
def setKey {α : Type} : List (String × α) → String → α → List (String × α)
  | [], k, v => [(k, v)]
  | p :: rest, k, v => if p.1 = k then (k, v) :: rest else p :: setKey rest k v

/-- Apply `f` to the value stored at key `k` (used for
`family.add_metric(...)` on an existing entry of `return_metrics`);
no-op when the key is absent. -/
def updateKey {α : Type} : List (String × α) → String → (α → α) → List (String × α)
  | [], _, _ => []
  | p :: rest, k, f => if p.1 = k then (p.1, f p.2) :: rest else p :: updateKey rest k f

/-- Constant `CONNECTION_STATES` from the source (the fixed ordered state
vocabulary). -/
def CONNECTION_STATES : List String :=
  ["UNKNOWN", "CONNECTED", "BOOTING", "SEARCHING",
   "STOWED", "THERMAL_SHUTDOWN", "SLEEPING", "NO_SATS",
   "OBSTRUCTED", "NO_DOWNLINK", "NO_PINGS", "DISH_UNREACHABLE"]

/-- Constant `STARLINK_NAME` from the source. -/
def STARLINK_NAME : String := "starlink"

/-- Constant `VERBOSE_FIELD_MAP` from the source. -/
def VERBOSE_FIELD_MAP : List (String × String) :=
  [("alerts", "Alerts bit field"),
   ("samples", "Parsed samples"),
   ("end_counter", "Sample counter"),
   ("total_ping_drop", "Total ping drop"),
   ("count_full_ping_drop", "Count of drop == 1"),
   ("count_obstructed", "Obstructed"),
   ("total_obstructed_ping_drop", "Obstructed ping drop"),
   ("count_full_obstructed_ping_drop", "Obstructed drop == 1"),
   ("count_unscheduled", "Unscheduled"),
   ("total_unscheduled_ping_drop", "Unscheduled ping drop"),
   ("count_full_unscheduled_ping_drop", "Unscheduled drop == 1"),
   ("init_run_fragment", "Initial drop run fragment"),
   ("final_run_fragment", "Final drop run fragment"),
   ("run_seconds", "Per-second drop runs"),
   ("run_minutes", "Per-minute drop runs"),
   ("mean_all_ping_latency", "Mean RTT, drop < 1"),
   ("deciles_all_ping_latency", "RTT deciles, drop < 1"),
   ("mean_full_ping_latency", "Mean RTT, drop == 0"),
   ("deciles_full_ping_latency", "RTT deciles, drop == 0"),
   ("stdev_full_ping_latency", "RTT standard deviation, drop == 0"),
   ("download_usage", "Bytes downloaded"),
   ("upload_usage", "Bytes uploaded")]

/-- A `GaugeMetricFamily`: name, documentation, label names, and samples
`(label value, numeric value, timestamp)`.  The single label is the dish
id, carried as the raw `Value` the source passes to `add_metric`. -/
structure GaugeFamily where
  name : String
  documentation : String
  labelNames : List String
  samples : List (Value × ℚ × Int)
deriving DecidableEq

/-- An `InfoMetricFamily`: samples carry a dict of textual fields. -/
structure InfoFamily where
  name : String
  documentation : String
  labelNames : List String
  samples : List (Value × List (String × String) × Int)
deriving DecidableEq

/-- A metric family object stored in `return_metrics`. -/
inductive Fam where
  | gauge : GaugeFamily → Fam
  | info : InfoFamily → Fam
deriving DecidableEq

/-- The `return_metrics` dict of `set_metrics`: family objects keyed by
field name (plus the reserved keys `"info"` and `"state"`). -/
abbrev RM := List (String × Fam)

/-- The name of a family object. -/
def famName : Fam → String
  | .gauge g => g.name
  | .info i => i.name

/-- Whether a family object holds at least one sample. -/
def famNonempty : Fam → Bool
  | .gauge g => !g.samples.isEmpty
  | .info i => !i.samples.isEmpty

/-- The call `return_metrics[key].add_metric(labels=[dish_id], value=v,
timestamp=ts)` for a gauge family at `key` (no-op on an info family; the
source only ever reaches this call with a gauge stored at `key`). -/
def addGaugeSample (rm : RM) (key : String) (dishId : Value) (v : ℚ) (ts : Int) : RM :=
  updateKey rm key fun fam =>
    match fam with
    | .gauge g => .gauge { g with samples := g.samples ++ [(dishId, v, ts)] }
    | f => f

/-- The dict comprehension over `enumerate(CONNECTION_STATES)` from
`_add_status`, as the ordered list of its items. -/
def starlinkStates : List (Nat × String) := CONNECTION_STATES.enum

/-- The legend string `docu` built by `_add_status`:
`"0 = UNKNOWN, 1 = CONNECTED, ..."`. -/
def statusDocu : String :=
  starlinkStates.foldl (fun d p => d ++ toString p.1 ++ " = " ++ p.2 ++ ", ") ""

/-- Method `StarlinkCollector._add_status`: get-or-create the `'state'` family
(a gauge named `starlink_dish_status` documented with the legend), then
add one sample valued `key` for every vocabulary entry equal to the
reported status. -/
def add_status (rm : RM) (dishId : Value) (starlinkStatus : Value) (ts : Int) : RM :=
  let rm1 := if (lookup rm "state").isSome then rm
             else setKey rm "state"
               (.gauge ⟨STARLINK_NAME ++ "_dish_status",
                        "Starlink Status " ++ statusDocu, ["id"], []⟩)
  starlinkStates.foldl
    (fun acc p =>
      if starlinkStatus = Value.string p.2 then
        addGaugeSample acc "state" dishId (p.1 : ℚ) ts
      else acc)
    rm1

/-- One queued element: the dict
`{"metrics_data": ..., "time_metrics": ...}` that `loop_body` puts on
`metrics_queue`. -/
structure MetricsRecord where
  metrics_data : List (String × FieldData)
  time_metrics : Int
deriving DecidableEq

/-- One iteration of the `for metric in metrics_data.keys()` loop of
`set_metrics`, folding over `(return_metrics, info_metrics)`:
skip `snr`; accumulate non-`id`/`state` strings into `info_metrics`;
get-or-create a gauge family per numeric field and add a sample. -/
def innerStep (dishId : Value) (ts : Int) :
    RM × List (String × String) → String × FieldData → RM × List (String × String)
  | (rm, infoMetrics), (metric, fd) =>
    if metric = "snr" then (rm, infoMetrics)
    else
      match fd.value with
      | .string s =>
        if metric ≠ "id" ∧ metric ≠ "state" then (rm, setKey infoMetrics metric s)
        else (rm, infoMetrics)
      | .number q =>
        let rm1 := if (lookup rm metric).isSome then rm
                   else setKey rm metric
                     (.gauge ⟨STARLINK_NAME ++ "_" ++ metric, fd.text, ["id"], []⟩)
        (addGaugeSample rm1 metric dishId q ts, infoMetrics)
      | _ => (rm, infoMetrics)

/-- The `add_metric` call on the info family: append the per-record
sample of textual fields (no-op on a gauge; the source only reaches this
with an info family stored at `'info'`). -/
def infoAppend (dishId : Value) (infoMetrics : List (String × String)) (ts : Int) :
    Fam → Fam
  | .info i => .info { i with samples := i.samples ++ [(dishId, infoMetrics, ts)] }
  | f => f

/-- The `if not 'info' in return_metrics` get-or-create step of
`set_metrics`. -/
def ensureInfo (rm : RM) : RM :=
  if (lookup rm "info").isSome then rm
  else setKey rm "info" (.info ⟨STARLINK_NAME, "Starlink Info", ["id"], []⟩)

/-- The field-classification fold of `set_metrics` for one record
followed by the per-record info-family update: fold all fields through
`innerStep`, then get-or-create the info family and append the record's
aggregate of textual fields. -/
def buildInfo (rm : RM) (dishId : Value) (md : List (String × FieldData)) (ts : Int) : RM :=
  updateKey (ensureInfo (md.foldl (innerStep dishId ts) (rm, [])).1) "info"
    (infoAppend dishId (md.foldl (innerStep dishId ts) (rm, [])).2 ts)

/-- The body of the `while not self.metrics_queue.empty()` loop of
`set_metrics` for one record: read `metrics_data['id']['value']`
(a `KeyError`, i.e. `.error`, if `'id'` is absent), fold all fields and
update the info family (`buildInfo`), and run `_add_status` when a
`'state'` field is present. -/
def processRecord (rm : RM) (rec : MetricsRecord) : Except Unit RM :=
  match lookup rec.metrics_data "id" with
  | Option.none => .error ()
  | some idFd =>
    match lookup rec.metrics_data "state" with
    | some stFd =>
      .ok (add_status (buildInfo rm idFd.value rec.metrics_data rec.time_metrics)
             idFd.value stFd.value rec.time_metrics)
    | Option.none => .ok (buildInfo rm idFd.value rec.metrics_data rec.time_metrics)

/-- Method `set_metrics`, processing the drained records in FIFO order.  Returns
the built `return_metrics` (or the propagated exception) together with
the records still queued: the Python loop `get()`s one record, processes
it, and an exception aborts the loop leaving the rest on the queue. -/
def set_metrics_go : List MetricsRecord → RM → Except Unit RM × List MetricsRecord
  | [], rm => (.ok rm, [])
  | r :: rest, rm =>
    match processRecord rm r with
    | .error e => (.error e, rest)
    | .ok rm1 => set_metrics_go rest rm1

/-- The collector's mutable state: `self.last_dish_id` and
`self.metrics_queue`. -/
structure CollectorState where
  last_dish_id : Value
  metrics_queue : List MetricsRecord
deriving DecidableEq

/-- Constructor `StarlinkCollector.__init__`: `last_dish_id = 'Unknown'`, empty queue. -/
def initState : CollectorState := ⟨.string "Unknown", []⟩

/-- Method `StarlinkCollector.collect`: drain via `set_metrics` and yield the
family objects in dict insertion order.  An exception while draining
aborts the scrape; already-drained records are gone from the queue. -/
def collect (st : CollectorState) : Except Unit (List Fam) × CollectorState :=
  match set_metrics_go st.metrics_queue [] with
  | (.ok rm, rest) => (.ok (rm.map fun p => p.2), { st with metrics_queue := rest })
  | (.error e, rest) => (.error e, { st with metrics_queue := rest })

/-- Function `iform` from `loop_body`: coerce `None`/`True`/`False` to `0`/`1`/`0`,
pass everything else through. -/
def iform : Value → Value
  | .none => .number 0
  | .boolean true => .number 1
  | .boolean false => .number 0
  | v => v

/-- Callback `cb_data_add_item` from `loop_body`: store the classified value with
its description (`VERBOSE_FIELD_MAP` with identity fallback) and
category. -/
def cb_data_add_item (md : List (String × FieldData)) (name : String)
    (val : Value) (category : String) : List (String × FieldData) :=
  setKey md name ⟨iform val, (lookup VERBOSE_FIELD_MAP name).getD name, category⟩

/-- The fallback record synthesized by `loop_body` when the fetch fails
or the result lacks an `'id'` field: overwrite `'state'` with the
`NO_CONNECTION_WITH_DISH` sentinel and `'id'` with the last known dish
id, timestamped with the current wall-clock time `now`.  (The source's
`'text'` for the id entry is `VERBOSE_FIELD_MAP.get(id, id)` applied to
the Python `id` builtin — a label-only quirk carried here as `"id"`.) -/
def fallbackRecord (lastDishId : Value) (md : List (String × FieldData))
    (now : Int) : MetricsRecord :=
  ⟨setKey (setKey md "state" ⟨.string "NO_CONNECTION_WITH_DISH", "state", "status"⟩)
      "id" ⟨lastDishId, "id", "status"⟩,
   now⟩

/-- Method `StarlinkCollector.loop_body` after `dish_common.get_data` returned:
`rc` is the status code, `md` the `metrics_data` dict the callbacks
filled, `status_ts` the feed-reported sample timestamp, and `now` the
current wall clock (`int(time.time())`).  On `rc == 0 and metrics_data
and 'id' in metrics_data` the record is enqueued as-is and
`last_dish_id` is updated; otherwise the fallback record is enqueued. -/
def loop_body (st : CollectorState) (rc : Int) (md : List (String × FieldData))
    (status_ts : Int) (now : Int) : CollectorState :=
  if rc = 0 ∧ md ≠ [] then
    match lookup md "id" with
    | some idFd => ⟨idFd.value, st.metrics_queue ++ [⟨md, status_ts⟩]⟩
    | Option.none =>
        ⟨st.last_dish_id, st.metrics_queue ++ [fallbackRecord st.last_dish_id md now]⟩
  else
    ⟨st.last_dish_id, st.metrics_queue ++ [fallbackRecord st.last_dish_id md now]⟩

/-- Producer invocations performed by the `while True` loop in `main`
before the `finally` clause runs: one regular poll, then—only when
`loop_interval > 0`—further regular polls until termination is raised
during a sleep.  `n` counts the completed sleeps before the termination
request arrives.  `false` = a `loop_body(...)` call with the default
`shutdown=False`. -/
def loopPolls (loop_interval : ℚ) : Nat → List Bool
  | 0 => [false]
  | n + 1 => if loop_interval > 0 then false :: loopPolls loop_interval n else [false]

/-- All Producer invocations of one `main` run, in order: the loop's
regular polls followed by the single `loop_body(..., shutdown=True)`
that the `finally` clause always performs (`true` = shutdown flush). -/
def mainInvocations (loop_interval : ℚ) (n : Nat) : List Bool :=
  loopPolls loop_interval n ++ [true]

/-! ### Dictionary lemmas -/

theorem lookup_setKey_self {α : Type} (d : List (String × α)) (k : String) (v : α) :
    lookup (setKey d k v) k = some v := by
  induction d with
  | nil => simp [setKey, lookup]
  | cons p rest ih =>
    by_cases h : p.1 = k
    · simp [setKey, h, lookup]
    · simp [setKey, h, lookup, ih]

theorem lookup_setKey_ne {α : Type} (d : List (String × α)) (k k2 : String) (v : α)
    (hne : k2 ≠ k) : lookup (setKey d k v) k2 = lookup d k2 := by
  have hk : ¬k = k2 := fun h => hne h.symm
  induction d with
  | nil => simp [setKey, lookup, hk]
  | cons p rest ih =>
    by_cases h : p.1 = k
    · have hp : ¬p.1 = k2 := by rw [h]; exact hk
      simp [setKey, h, lookup, hp, hk]
    · by_cases h2 : p.1 = k2
      · simp [setKey, h, lookup, h2, hne]
      · simp [setKey, h, lookup, h2, ih]

theorem lookup_updateKey_self {α : Type} (d : List (String × α)) (k : String)
    (f : α → α) : lookup (updateKey d k f) k = (lookup d k).map f := by
  induction d with
  | nil => simp [updateKey, lookup]
  | cons p rest ih =>
    by_cases h : p.1 = k
    · simp [updateKey, h, lookup]
    · simp [updateKey, h, lookup, ih]

theorem lookup_updateKey_ne {α : Type} (d : List (String × α)) (k k2 : String)
    (f : α → α) (hne : k2 ≠ k) : lookup (updateKey d k f) k2 = lookup d k2 := by
  have hk : ¬k = k2 := fun h => hne h.symm
  induction d with
  | nil => simp [updateKey]
  | cons p rest ih =>
    by_cases h : p.1 = k
    · have hp : ¬p.1 = k2 := by rw [h]; exact hk
      simp [updateKey, h, lookup, hp, hk]
    · by_cases h2 : p.1 = k2
      · simp [updateKey, h, lookup, h2, hne]
      · simp [updateKey, h, lookup, h2, ih]

theorem updateKey_setKey {α : Type} (d : List (String × α)) (k : String) (v : α)
    (f : α → α) : updateKey (setKey d k v) k f = setKey d k (f v) := by
  induction d with
  | nil => simp [setKey, updateKey]
  | cons p rest ih =>
    by_cases h : p.1 = k
    · simp [setKey, h, updateKey]
    · simp [setKey, h, updateKey, ih]

theorem mem_setKey {α : Type} {d : List (String × α)} {k : String} {v : α}
    {p : String × α} (h : p ∈ setKey d k v) : p = (k, v) ∨ p ∈ d := by
  induction d with
  | nil =>
    simp only [setKey, List.mem_singleton] at h
    exact Or.inl h
  | cons q rest ih =>
    by_cases hq : q.1 = k
    · simp only [setKey, if_pos hq, List.mem_cons] at h
      rcases h with h | h
      · exact Or.inl h
      · exact Or.inr (List.mem_cons_of_mem _ h)
    · simp only [setKey, if_neg hq, List.mem_cons] at h
      rcases h with h | h
      · exact Or.inr (h ▸ List.mem_cons_self _ _)
      · rcases ih h with h2 | h2
        · exact Or.inl h2
        · exact Or.inr (List.mem_cons_of_mem _ h2)

theorem mem_updateKey {α : Type} {d : List (String × α)} {k : String} {f : α → α}
    {p : String × α} (h : p ∈ updateKey d k f) :
    p ∈ d ∨ ∃ a, (k, a) ∈ d ∧ p = (k, f a) := by
  induction d with
  | nil => simp [updateKey] at h
  | cons q rest ih =>
    by_cases hq : q.1 = k
    · simp only [updateKey, if_pos hq, List.mem_cons] at h
      rcases h with h | h
      · refine Or.inr ⟨q.2, ?_, ?_⟩
        · have hkq : (k, q.2) = q := by rw [← hq]
          rw [hkq]
          exact List.mem_cons_self _ _
        · rw [h, hq]
      · exact Or.inl (List.mem_cons_of_mem _ h)
    · simp only [updateKey, if_neg hq, List.mem_cons] at h
      rcases h with h | h
      · exact Or.inl (h ▸ List.mem_cons_self _ _)
      · rcases ih h with h2 | ⟨a, ha, hp⟩
        · exact Or.inl (List.mem_cons_of_mem _ h2)
        · exact Or.inr ⟨a, List.mem_cons_of_mem _ ha, hp⟩

/-! ### Claim theorems -/

/-- C1: after a poll whose telemetry fetch fails, the Producer's fallback
record carries the `NO_CONNECTION_WITH_DISH` sentinel, yet the scrape
returns the state family (`starlink_dish_status`) with an empty sample
list, because the sentinel is not among `CONNECTION_STATES` and so the
match loop of `_add_status` adds no sample.  The state family therefore
silently omits the disconnected condition, contradicting the claim; the
code defeats the documented purpose of its own fallback record. -/
theorem c1_disconnect_state_family_empty :
    lookup (fallbackRecord (Value.string "Unknown") [] 12345).metrics_data "state"
      = some ⟨Value.string "NO_CONNECTION_WITH_DISH", "state", "status"⟩
  ∧ loop_body initState 1 [] 0 12345
      = ⟨Value.string "Unknown", [fallbackRecord (Value.string "Unknown") [] 12345]⟩
  ∧ collect ⟨Value.string "Unknown", [fallbackRecord (Value.string "Unknown") [] 12345]⟩
      = (.ok [Fam.info ⟨"starlink", "Starlink Info", ["id"],
                        [(Value.string "Unknown", [], 12345)]⟩,
              Fam.gauge ⟨"starlink_dish_status", "Starlink Status " ++ statusDocu,
                         ["id"], []⟩],
         ⟨Value.string "Unknown", []⟩) :=
  ⟨rfl, rfl, rfl⟩

/-- C2: on a failed poll, or a successful one whose result lacks an
`'id'` field, `loop_body` enqueues exactly one fallback record whose
`state` field is the `NO_CONNECTION_WITH_DISH` sentinel, whose `id`
field is the current `last_dish_id` (initialized to the `"Unknown"`
sentinel), and whose timestamp is the current wall clock `now`;
`last_dish_id` is left unchanged.  On a successful poll with an id, the
feed's record is enqueued as-is and `last_dish_id` becomes the
feed-reported identifier. -/
theorem c2_fallback_record_fields :
    initState.last_dish_id = Value.string "Unknown"
  ∧ (∀ (st : CollectorState) (rc : Int) md status_ts now,
      ¬(rc = 0 ∧ md ≠ [] ∧ (lookup md "id").isSome = true) →
      loop_body st rc md status_ts now
        = ⟨st.last_dish_id, st.metrics_queue ++ [fallbackRecord st.last_dish_id md now]⟩
      ∧ lookup (fallbackRecord st.last_dish_id md now).metrics_data "state"
          = some ⟨Value.string "NO_CONNECTION_WITH_DISH", "state", "status"⟩
      ∧ lookup (fallbackRecord st.last_dish_id md now).metrics_data "id"
          = some ⟨st.last_dish_id, "id", "status"⟩
      ∧ (fallbackRecord st.last_dish_id md now).time_metrics = now)
  ∧ (∀ (st : CollectorState) (rc : Int) md status_ts now idFd,
      rc = 0 → md ≠ [] → lookup md "id" = some idFd →
      loop_body st rc md status_ts now
        = ⟨idFd.value, st.metrics_queue ++ [(⟨md, status_ts⟩ : MetricsRecord)]⟩) := by
  refine ⟨rfl, ?_, ?_⟩
  · intro st rc md status_ts now h
    refine ⟨?_, ?_, ?_, rfl⟩
    · unfold loop_body
      by_cases hc : rc = 0 ∧ md ≠ []
      · rw [if_pos hc]
        have hnone : lookup md "id" = Option.none := by
          cases hl : lookup md "id" with
          | none => rfl
          | some v => exact absurd ⟨hc.1, hc.2, by rw [hl]; rfl⟩ h
        rw [hnone]
      · rw [if_neg hc]
    · unfold fallbackRecord
      rw [lookup_setKey_ne _ _ _ _ (by decide), lookup_setKey_self]
    · unfold fallbackRecord
      rw [lookup_setKey_self]
  · intro st rc md status_ts now idFd h0 hne hid
    unfold loop_body
    rw [if_pos ⟨h0, hne⟩, hid]

/-- Witness for C2: the fallback branch at a concrete failed poll from
the initial state, and the success branch at a concrete successful
poll. -/
theorem c2_fallback_record_fields_witness :
    loop_body initState 1 [] 0 7
      = ⟨Value.string "Unknown", [fallbackRecord (Value.string "Unknown") [] 7]⟩
  ∧ loop_body initState 0 [("id", ⟨Value.string "UT9", "id", "status"⟩)] 3 4
      = ⟨Value.string "UT9",
         [(⟨[("id", ⟨Value.string "UT9", "id", "status"⟩)], 3⟩ : MetricsRecord)]⟩ :=
  ⟨(c2_fallback_record_fields.2.1 initState 1 [] 0 7 (by decide)).1,
   c2_fallback_record_fields.2.2 initState 0
     [("id", ⟨Value.string "UT9", "id", "status"⟩)] 3 4
     ⟨Value.string "UT9", "id", "status"⟩ rfl (by decide) rfl⟩

/-- C6: a queued record without an `'id'` field makes the scrape path
raise (the unguarded `metrics_data['id']` subscript in `set_metrics`
throws `KeyError`), aborting the drain: the scrape returns an error and
the well-formed record behind it is not delivered, contradicting the
claimed defensive skip.  The code contradicts the spec's error-handling
design, which the spec states as the intent. -/
theorem c6_missing_id_crashes_scrape :
    collect ⟨Value.string "Unknown",
             [⟨[("uptime", ⟨Value.number 5, "uptime", "status"⟩)], 100⟩,
              ⟨[("id", ⟨Value.string "UT123", "id", "status"⟩)], 101⟩]⟩
      = (.error (),
         ⟨Value.string "Unknown",
          [⟨[("id", ⟨Value.string "UT123", "id", "status"⟩)], 101⟩]⟩) := rfl

/-- C9: the value classifier `iform` is a pure total function mapping
`None` to numeric 0, `True` to 1, `False` to 0, and passing every
numeric value through unchanged; `cb_data_add_item` stores exactly
`iform val` for every field name and category, so the coercion is
independent of the field name. -/
theorem c9_classifier_coercion :
    iform Value.none = Value.number 0
  ∧ iform (Value.boolean true) = Value.number 1
  ∧ iform (Value.boolean false) = Value.number 0
  ∧ (∀ q : ℚ, iform (Value.number q) = Value.number q)
  ∧ (∀ md name val category,
      lookup (cb_data_add_item md name val category) name
        = some ⟨iform val, (lookup VERBOSE_FIELD_MAP name).getD name, category⟩) :=
  ⟨rfl, rfl, rfl, fun _ => rfl,
   fun md name _ _ => lookup_setKey_self md name _⟩

theorem loopPolls_nonpos (i : ℚ) (h : ¬i > 0) : ∀ n, loopPolls i n = [false] := by
  intro n
  cases n with
  | zero => rfl
  | succ m => rw [loopPolls, if_neg h]

theorem loopPolls_pos (i : ℚ) (h : i > 0) :
    ∀ n, loopPolls i n = List.replicate (n + 1) false := by
  intro n
  induction n with
  | zero => rfl
  | succ m ih => rw [loopPolls, if_pos h, ih]; rfl

/-- C7 counterexample: with interval 0 the program performs two Producer
invocations, not one — the `finally` clause of `main` runs
`loop_body(..., shutdown=True)` on every exit path, including the
single-shot `break`. -/
theorem c7_single_shot_two_invocations :
    mainInvocations 0 0 = [false, true] ∧ (mainInvocations 0 0).length ≠ 1 :=
  ⟨rfl, by decide⟩

/-- C7 (amended): every run of `main` ends with exactly one
`shutdown=true` Producer invocation, placed last — on termination during
looped operation and equally on the single-shot exit.  A zero or
negative interval therefore yields one regular poll followed by the
shutdown flush (two invocations), and a positive interval with `n`
completed sleeps before termination yields `n + 1` regular polls
followed by the shutdown flush. -/
theorem c7_shutdown_flush_on_every_exit :
    (∀ (i : ℚ) (n : Nat), (mainInvocations i n).count true = 1
        ∧ (mainInvocations i n).getLast? = some true)
  ∧ (∀ (i : ℚ) (n : Nat), ¬i > 0 → mainInvocations i n = [false, true])
  ∧ (∀ (i : ℚ) (n : Nat), i > 0 →
        mainInvocations i n = List.replicate (n + 1) false ++ [true]) := by
  refine ⟨fun i n => ⟨?_, ?_⟩, fun i n h => ?_, fun i n h => ?_⟩
  · by_cases h : i > 0
    · rw [mainInvocations, loopPolls_pos i h]
      simp [List.count_append, List.count_replicate]
    · rw [mainInvocations, loopPolls_nonpos i h]
      rfl
  · rw [mainInvocations, List.getLast?_concat]
  · rw [mainInvocations, loopPolls_nonpos i h]
    rfl
  · rw [mainInvocations, loopPolls_pos i h]

/-- Witness for C7 (amended): concrete single-shot and looped runs. -/
theorem c7_shutdown_flush_on_every_exit_witness :
    mainInvocations 0 0 = [false, true]
  ∧ mainInvocations 1 2 = List.replicate 3 false ++ [true] :=
  ⟨c7_shutdown_flush_on_every_exit.2.1 0 0 (by norm_num),
   c7_shutdown_flush_on_every_exit.2.2 1 2 (by norm_num)⟩

/-- Removing the deprecated `snr` field from a queued record. -/
def stripSnr (r : MetricsRecord) : MetricsRecord :=
  ⟨r.metrics_data.filter fun p => p.1 != "snr", r.time_metrics⟩

theorem innerStep_snr (dishId : Value) (ts : Int) (acc : RM × List (String × String))
    (fd : FieldData) : innerStep dishId ts acc ("snr", fd) = acc := by
  obtain ⟨rm, infoMetrics⟩ := acc
  simp [innerStep]

theorem foldl_innerStep_filter_snr (dishId : Value) (ts : Int)
    (md : List (String × FieldData)) :
    ∀ acc, (md.filter fun p => p.1 != "snr").foldl (innerStep dishId ts) acc
      = md.foldl (innerStep dishId ts) acc := by
  induction md with
  | nil => intro acc; rfl
  | cons p rest ih =>
    intro acc
    obtain ⟨k, fd⟩ := p
    by_cases h : k = "snr"
    · subst h
      rw [List.filter_cons_of_neg (by simp)]
      rw [ih acc, List.foldl_cons, innerStep_snr]
    · rw [List.filter_cons_of_pos (by simp [h])]
      rw [List.foldl_cons, List.foldl_cons, ih]

theorem lookup_filter_snr (md : List (String × FieldData)) (k : String)
    (h : k ≠ "snr") :
    lookup (md.filter fun p => p.1 != "snr") k = lookup md k := by
  induction md with
  | nil => rfl
  | cons p rest ih =>
    by_cases hp : p.1 = "snr"
    · have hk : ¬p.1 = k := by rw [hp]; exact fun he => h he.symm
      rw [List.filter_cons_of_neg (by simp [hp])]
      rw [ih]
      conv_rhs => rw [lookup]
      rw [if_neg hk]
    · rw [List.filter_cons_of_pos (by simp [hp])]
      by_cases hk : p.1 = k
      · simp [lookup, hk]
      · simp [lookup, hk, ih]

theorem processRecord_stripSnr (rm : RM) (r : MetricsRecord) :
    processRecord rm (stripSnr r) = processRecord rm r := by
  unfold processRecord buildInfo stripSnr
  dsimp only
  rw [lookup_filter_snr _ _ (by decide), lookup_filter_snr _ _ (by decide)]
  simp only [foldl_innerStep_filter_snr]

/-- C8: the `snr` field contributes to no emitted metric family: running
`set_metrics` over any queue with every `snr` entry deleted produces the
same result (the same families with the same samples, and leftover
records related by the same deletion), because `set_metrics` skips the
field unconditionally before the info/gauge/state classification. -/
theorem c8_snr_never_emitted :
    ∀ (q : List MetricsRecord) (rm : RM),
      set_metrics_go (q.map stripSnr) rm
        = ((set_metrics_go q rm).1, (set_metrics_go q rm).2.map stripSnr) := by
  intro q
  induction q with
  | nil => intro rm; rfl
  | cons r rest ih =>
    intro rm
    simp only [List.map_cons, set_metrics_go, processRecord_stripSnr]
    cases h : processRecord rm r with
    | error e => simp [h]
    | ok rm1 => simp [h, ih]

/-! ### The state family (C3, C5) -/

/-- The samples of the `'state'` entry of `return_metrics` (empty when the
entry is absent or not a gauge). -/
def stateGaugeSamples (rm : RM) : List (Value × ℚ × Int) :=
  match lookup rm "state" with
  | some (.gauge g) => g.samples
  | _ => []

/-- The documentation of the `'state'` entry of `return_metrics`. -/
def stateDoc (rm : RM) : String :=
  match lookup rm "state" with
  | some (.gauge g) => g.documentation
  | _ => ""

/-- The `'state'` slot is absent or holds a gauge family (the only two
shapes the source ever produces there for string-valued states). -/
def stateSlotOk (rm : RM) : Prop :=
  lookup rm "state" = Option.none ∨ ∃ g, lookup rm "state" = some (.gauge g)

theorem lookup_addGaugeSample_state (rm : RM) (d : Value) (v : ℚ) (ts : Int)
    (g : GaugeFamily) (h : lookup rm "state" = some (.gauge g)) :
    lookup (addGaugeSample rm "state" d v ts) "state"
      = some (.gauge { g with samples := g.samples ++ [(d, v, ts)] }) := by
  unfold addGaugeSample
  rw [lookup_updateKey_self, h]
  rfl

/-- The samples the match loop of `_add_status` appends when iterating
over `l` with reported status `status`: one sample per entry of `l`
whose state name equals the status, valued at the entry's index. -/
def matchedSamplesOf (l : List (Nat × String)) (d status : Value) (ts : Int) :
    List (Value × ℚ × Int) :=
  (l.filter fun p => decide (status = Value.string p.2)).map (fun p => (d, (p.1 : ℚ), ts))

theorem foldAdd_states (d status : Value) (ts : Int) :
    ∀ (l : List (Nat × String)) (rm : RM) (g : GaugeFamily),
      lookup rm "state" = some (.gauge g) →
      lookup (l.foldl
          (fun acc p => if status = Value.string p.2
            then addGaugeSample acc "state" d (p.1 : ℚ) ts else acc) rm) "state"
        = some (.gauge { g with samples := g.samples ++ matchedSamplesOf l d status ts }) := by
  intro l
  induction l with
  | nil => intro rm g h; simpa [matchedSamplesOf] using h
  | cons p rest ih =>
    intro rm g h
    by_cases hc : status = Value.string p.2
    · rw [List.foldl_cons, if_pos hc]
      rw [ih _ _ (lookup_addGaugeSample_state rm d _ ts g h)]
      simp only [matchedSamplesOf]
      rw [List.filter_cons_of_pos (by simp [hc])]
      simp
    · rw [List.foldl_cons, if_neg hc]
      rw [ih _ _ h]
      simp only [matchedSamplesOf]
      rw [List.filter_cons_of_neg (by simp [hc])]

theorem add_status_absent (rm : RM) (d status : Value) (ts : Int)
    (h : lookup rm "state" = Option.none) :
    lookup (add_status rm d status ts) "state"
      = some (.gauge
          { name := STARLINK_NAME ++ "_dish_status",
            documentation := "Starlink Status " ++ statusDocu,
            labelNames := ["id"],
            samples := matchedSamplesOf starlinkStates d status ts }) := by
  unfold add_status
  rw [h]
  rw [if_neg (by simp)]
  rw [foldAdd_states d status ts starlinkStates _ _ (lookup_setKey_self rm "state" _)]
  rfl

theorem add_status_present (rm : RM) (d status : Value) (ts : Int) (g : GaugeFamily)
    (h : lookup rm "state" = some (.gauge g)) :
    lookup (add_status rm d status ts) "state"
      = some (.gauge { g with samples := g.samples ++ matchedSamplesOf starlinkStates d status ts }) := by
  unfold add_status
  rw [h]
  rw [if_pos (by simp)]
  exact foldAdd_states d status ts starlinkStates rm g h

/-- C3 (amended): for every drained record whose `state` value is one of
the fixed vocabulary `CONNECTION_STATES`, `_add_status` appends exactly
one numeric sample for the record's device id, valued at the index of
the state name in the vocabulary (not one sample per possible state);
when the family is freshly created its documentation string embeds the
full index-to-name legend.  (For a state outside the vocabulary — e.g.
the fallback sentinel — no sample is appended; see the
counterexample.) -/
theorem c3_state_code_sample :
    ∀ (rm : RM) (d : Value) (s : String) (ts : Int),
      stateSlotOk rm → s ∈ CONNECTION_STATES →
      stateGaugeSamples (add_status rm d (Value.string s) ts)
        = stateGaugeSamples rm ++ [(d, ((CONNECTION_STATES.indexOf s : Nat) : ℚ), ts)]
      ∧ (lookup rm "state" = Option.none →
          stateDoc (add_status rm d (Value.string s) ts)
            = "Starlink Status 0 = UNKNOWN, 1 = CONNECTED, 2 = BOOTING, 3 = SEARCHING, 4 = STOWED, 5 = THERMAL_SHUTDOWN, 6 = SLEEPING, 7 = NO_SATS, 8 = OBSTRUCTED, 9 = NO_DOWNLINK, 10 = NO_PINGS, 11 = DISH_UNREACHABLE, ") := by
  intro rm d s ts hok hs
  have key : matchedSamplesOf starlinkStates d (Value.string s) ts
      = [(d, ((CONNECTION_STATES.indexOf s : Nat) : ℚ), ts)] := by
    simp only [CONNECTION_STATES] at hs
    fin_cases hs <;> rfl
  constructor
  · rcases hok with h | ⟨g, h⟩
    · have h2 := add_status_absent rm d (Value.string s) ts h
      simp only [stateGaugeSamples, h2, h, key, List.nil_append]
    · have h2 := add_status_present rm d (Value.string s) ts g h
      simp only [stateGaugeSamples, h2, h, key]
  · intro habs
    have h2 := add_status_absent rm d (Value.string s) ts habs
    simp only [stateDoc, h2]
    rfl

/-- Witness for C3 (amended): a fresh family and the state `CONNECTED`
(index 1). -/
theorem c3_state_code_sample_witness :
    stateGaugeSamples (add_status [] (Value.string "UT123") (Value.string "CONNECTED") 9)
      = stateGaugeSamples ([] : RM)
        ++ [(Value.string "UT123", ((CONNECTION_STATES.indexOf "CONNECTED" : Nat) : ℚ), 9)]
  ∧ stateDoc (add_status [] (Value.string "UT123") (Value.string "CONNECTED") 9)
      = "Starlink Status 0 = UNKNOWN, 1 = CONNECTED, 2 = BOOTING, 3 = SEARCHING, 4 = STOWED, 5 = THERMAL_SHUTDOWN, 6 = SLEEPING, 7 = NO_SATS, 8 = OBSTRUCTED, 9 = NO_DOWNLINK, 10 = NO_PINGS, 11 = DISH_UNREACHABLE, " :=
  ⟨(c3_state_code_sample [] (Value.string "UT123") "CONNECTED" 9 (Or.inl rfl) (by decide)).1,
   (c3_state_code_sample [] (Value.string "UT123") "CONNECTED" 9 (Or.inl rfl) (by decide)).2 rfl⟩

/-- Families built by a successful scrape of `q` (the `return_metrics`
dict), or `[]` if the scrape raised. -/
def rmOfScrape (q : List MetricsRecord) : RM :=
  match set_metrics_go q [] with
  | (.ok rm, _) => rm
  | (.error _, _) => []

/-- C3 counterexample: the fallback record's `state` field is present,
yet scraping it yields a state family with no sample at all for the
record — the sentinel `NO_CONNECTION_WITH_DISH` is outside the
vocabulary, so the claimed "exactly one numeric sample per device id for
that record" fails. -/
theorem c3_sentinel_yields_no_sample :
    (lookup (fallbackRecord (Value.string "Unknown") [] 777).metrics_data "state").isSome = true
  ∧ lookup (rmOfScrape [fallbackRecord (Value.string "Unknown") [] 777]) "state"
      = some (.gauge ⟨"starlink_dish_status", "Starlink Status " ++ statusDocu, ["id"], []⟩)
  ∧ stateGaugeSamples (rmOfScrape [fallbackRecord (Value.string "Unknown") [] 777]) = [] :=
  ⟨rfl, rfl, rfl⟩

/-! ### Families returned with zero samples (C5) -/

/-- A family object the collector may legitimately hold: either it has a
sample, or it is the dish-status family (the only one the source ever
creates without immediately adding a sample). -/
def famOk (f : Fam) : Prop :=
  famNonempty f = true ∨ famName f = "starlink_dish_status"

theorem famOk_setKey {rm : RM} (hrm : ∀ p ∈ rm, famOk p.2) {k : String} {f : Fam}
    (hf : famOk f) : ∀ p ∈ setKey rm k f, famOk p.2 := by
  intro p hp
  rcases mem_setKey hp with h | h
  · rw [h]; exact hf
  · exact hrm p h

theorem famOk_updateKey {rm : RM} (hrm : ∀ p ∈ rm, famOk p.2) (k : String)
    {f : Fam → Fam} (hf : ∀ a, famOk a → famOk (f a)) :
    ∀ p ∈ updateKey rm k f, famOk p.2 := by
  intro p hp
  rcases mem_updateKey hp with h | ⟨a, ha, hpa⟩
  · exact hrm p h
  · rw [hpa]
    exact hf a (hrm (k, a) ha)

theorem famOk_addGaugeSample {rm : RM} (hrm : ∀ p ∈ rm, famOk p.2)
    (k : String) (d : Value) (v : ℚ) (ts : Int) :
    ∀ p ∈ addGaugeSample rm k d v ts, famOk p.2 := by
  apply famOk_updateKey hrm k
  intro a ha
  cases a with
  | gauge g => left; simp [famNonempty]
  | info i => exact ha

theorem famOk_innerStep (d : Value) (ts : Int)
    (acc : RM × List (String × String)) (kv : String × FieldData)
    (hrm : ∀ p ∈ acc.1, famOk p.2) :
    ∀ p ∈ (innerStep d ts acc kv).1, famOk p.2 := by
  obtain ⟨rm, infoM⟩ := acc
  obtain ⟨metric, fd⟩ := kv
  simp only [innerStep]
  by_cases hsnr : metric = "snr"
  · rw [if_pos hsnr]; exact hrm
  · rw [if_neg hsnr]
    cases hv : fd.value with
    | none => exact hrm
    | boolean b => exact hrm
    | string s =>
      dsimp only
      by_cases hc : metric ≠ "id" ∧ metric ≠ "state"
      · rw [if_pos hc]; exact hrm
      · rw [if_neg hc]; exact hrm
    | number q =>
      dsimp only
      by_cases hl : (lookup rm metric).isSome = true
      · rw [if_pos hl]
        exact famOk_addGaugeSample hrm metric d q ts
      · rw [if_neg hl]
        rw [addGaugeSample, updateKey_setKey]
        exact famOk_setKey hrm (Or.inl (by simp [famNonempty]))

theorem famOk_foldl (d : Value) (ts : Int) :
    ∀ (md : List (String × FieldData)) (acc : RM × List (String × String)),
      (∀ p ∈ acc.1, famOk p.2) →
      ∀ p ∈ (md.foldl (innerStep d ts) acc).1, famOk p.2 := by
  intro md
  induction md with
  | nil => intro acc h; exact h
  | cons kv rest ih =>
    intro acc h
    rw [List.foldl_cons]
    exact ih _ (famOk_innerStep d ts acc kv h)

theorem famOk_foldStates (d status : Value) (ts : Int) :
    ∀ (l : List (Nat × String)) (rm : RM), (∀ p ∈ rm, famOk p.2) →
      ∀ p ∈ l.foldl (fun acc q => if status = Value.string q.2
          then addGaugeSample acc "state" d (q.1 : ℚ) ts else acc) rm, famOk p.2 := by
  intro l
  induction l with
  | nil => intro rm h; exact h
  | cons q rest ih =>
    intro rm h
    rw [List.foldl_cons]
    apply ih
    by_cases hc : status = Value.string q.2
    · rw [if_pos hc]
      exact famOk_addGaugeSample h "state" d _ ts
    · rw [if_neg hc]; exact h

theorem famOk_add_status {rm : RM} (hrm : ∀ p ∈ rm, famOk p.2)
    (d status : Value) (ts : Int) :
    ∀ p ∈ add_status rm d status ts, famOk p.2 := by
  unfold add_status
  apply famOk_foldStates
  by_cases hl : (lookup rm "state").isSome = true
  · rw [if_pos hl]; exact hrm
  · rw [if_neg hl]
    exact famOk_setKey hrm (Or.inr rfl)

theorem famOk_buildInfo {rm : RM} (hrm : ∀ p ∈ rm, famOk p.2)
    (dishId : Value) (md : List (String × FieldData)) (ts : Int) :
    ∀ p ∈ buildInfo rm dishId md ts, famOk p.2 := by
  have hfold := famOk_foldl dishId ts md (rm, []) hrm
  unfold buildInfo ensureInfo
  by_cases hl : (lookup (md.foldl (innerStep dishId ts) (rm, [])).1 "info").isSome = true
  · rw [if_pos hl]
    apply famOk_updateKey hfold "info"
    intro a ha
    cases a with
    | info i => left; simp [infoAppend, famNonempty]
    | gauge g => exact ha
  · rw [if_neg hl, updateKey_setKey]
    exact famOk_setKey hfold (Or.inl (by simp [infoAppend, famNonempty]))

theorem famOk_processRecord {rm rm2 : RM} {r : MetricsRecord}
    (hrm : ∀ p ∈ rm, famOk p.2) (h : processRecord rm r = .ok rm2) :
    ∀ p ∈ rm2, famOk p.2 := by
  unfold processRecord at h
  cases hid : lookup r.metrics_data "id" with
  | none => rw [hid] at h; cases h
  | some idFd =>
    rw [hid] at h
    cases hst : lookup r.metrics_data "state" with
    | some stFd =>
      rw [hst] at h
      injection h with h
      rw [← h]
      exact famOk_add_status (famOk_buildInfo hrm _ _ _) _ _ _
    | none =>
      rw [hst] at h
      injection h with h
      rw [← h]
      exact famOk_buildInfo hrm _ _ _

theorem famOk_set_metrics_go :
    ∀ (q : List MetricsRecord) (rm : RM), (∀ p ∈ rm, famOk p.2) →
      ∀ (rm2 : RM) (rest : List MetricsRecord),
        set_metrics_go q rm = (.ok rm2, rest) → ∀ p ∈ rm2, famOk p.2 := by
  intro q
  induction q with
  | nil =>
    intro rm h rm2 rest heq
    simp only [set_metrics_go, Prod.mk.injEq] at heq
    obtain ⟨h1, h2⟩ := heq
    injection h1 with h1
    rw [← h1]
    exact h
  | cons r rest0 ih =>
    intro rm h rm2 rest heq
    cases hp : processRecord rm r with
    | error e =>
      simp only [set_metrics_go, hp] at heq
      exact absurd (congrArg Prod.fst heq) (by simp)
    | ok rm1 =>
      simp only [set_metrics_go, hp] at heq
      exact ih rm1 (famOk_processRecord h hp) rm2 rest heq

/-- C5 (amended): every family returned by a scrape has at least one
sample, except possibly the dish-status (state) family, which may be
returned with zero samples when a record's state matches no vocabulary
entry (e.g. the fallback sentinel).  Gauge families are only created
when a sample is immediately added, and the info family receives one
sample per drained record. -/
theorem c5_families_have_samples :
    ∀ (st : CollectorState) (fams : List Fam) (st2 : CollectorState),
      collect st = (.ok fams, st2) →
      ∀ f ∈ fams, famNonempty f = true ∨ famName f = "starlink_dish_status" := by
  intro st fams st2 h f hf
  unfold collect at h
  cases hgo : set_metrics_go st.metrics_queue [] with
  | mk res rest =>
    cases res with
    | error e =>
      rw [hgo] at h
      exact absurd (congrArg Prod.fst h) (by simp)
    | ok rm =>
      rw [hgo] at h
      have h1 := congrArg Prod.fst h
      simp only at h1
      injection h1 with h1
      rw [← h1] at hf
      rcases List.mem_map.1 hf with ⟨p, hp, hpf⟩
      rw [← hpf]
      exact famOk_set_metrics_go st.metrics_queue [] (by simp) rm rest hgo p hp

/-- Witness for C5 (amended): a scrape of one well-formed record
returning a single info family. -/
theorem c5_families_have_samples_witness :
    famNonempty (Fam.info ⟨"starlink", "Starlink Info", ["id"],
        [(Value.string "UT1", [], 5)]⟩) = true
    ∨ famName (Fam.info ⟨"starlink", "Starlink Info", ["id"],
        [(Value.string "UT1", [], 5)]⟩) = "starlink_dish_status" :=
  c5_families_have_samples
    ⟨Value.string "Unknown", [⟨[("id", ⟨Value.string "UT1", "id", "status"⟩)], 5⟩]⟩
    [Fam.info ⟨"starlink", "Starlink Info", ["id"], [(Value.string "UT1", [], 5)]⟩]
    ⟨Value.string "Unknown", []⟩ rfl
    (Fam.info ⟨"starlink", "Starlink Info", ["id"], [(Value.string "UT1", [], 5)]⟩)
    (List.mem_singleton.2 rfl)

/-- C5 counterexample: a scrape of the fallback record returns the
dish-status family with zero samples, so the output is not restricted to
families that received a sample this scrape. -/
theorem c5_zero_sample_family_returned :
    (collect ⟨Value.string "Unknown", [fallbackRecord (Value.string "Unknown") [] 321]⟩).1
      = .ok [Fam.info ⟨"starlink", "Starlink Info", ["id"],
                       [(Value.string "Unknown", [], 321)]⟩,
             Fam.gauge ⟨"starlink_dish_status", "Starlink Status " ++ statusDocu,
                        ["id"], []⟩]
  ∧ famNonempty (Fam.gauge ⟨"starlink_dish_status", "Starlink Status " ++ statusDocu,
                        ["id"], []⟩) = false :=
  ⟨rfl, rfl⟩

/-! ### Exactly-once draining (C4) -/

theorem fallback_hasId (last : Value) (md : List (String × FieldData)) (now : Int) :
    (lookup (fallbackRecord last md now).metrics_data "id").isSome = true := by
  unfold fallbackRecord
  dsimp only
  rw [lookup_setKey_self]
  rfl

theorem processRecord_ok (rm : RM) (r : MetricsRecord)
    (h : (lookup r.metrics_data "id").isSome = true) :
    ∃ rm2, processRecord rm r = .ok rm2 := by
  unfold processRecord
  cases hl : lookup r.metrics_data "id" with
  | none => rw [hl] at h; exact absurd h (by simp)
  | some idFd =>
    cases hs : lookup r.metrics_data "state" with
    | some stFd =>
      exact ⟨add_status (buildInfo rm idFd.value r.metrics_data r.time_metrics)
               idFd.value stFd.value r.time_metrics, rfl⟩
    | none =>
      exact ⟨buildInfo rm idFd.value r.metrics_data r.time_metrics, rfl⟩

theorem set_metrics_go_ok :
    ∀ (q : List MetricsRecord),
      (∀ r ∈ q, (lookup r.metrics_data "id").isSome = true) →
      ∀ rm : RM, ∃ rm2, set_metrics_go q rm = (.ok rm2, []) := by
  intro q
  induction q with
  | nil => intro _ rm; exact ⟨rm, rfl⟩
  | cons r rest ih =>
    intro h rm
    obtain ⟨rm1, h1⟩ := processRecord_ok rm r (h r (List.mem_cons_self _ _))
    obtain ⟨rm2, h2⟩ := ih (fun x hx => h x (List.mem_cons_of_mem _ hx)) rm1
    refine ⟨rm2, ?_⟩
    simp only [set_metrics_go, h1, h2]

/-- C4: draining is destructive and exactly-once.  Every record the
Producer enqueues carries an `'id'` field (both the live and the
fallback path set one), and for any queue of such records a scrape
succeeds with no leftover record — the families are built from exactly
the queued records, the queue is left empty, and a second scrape with no
intervening poll returns an empty family set and changes nothing. -/
theorem c4_drain_exactly_once :
    (∀ (st : CollectorState) (rc : Int) md status_ts now,
        (loop_body st rc md status_ts now).metrics_queue.length
          = st.metrics_queue.length + 1
      ∧ ∀ r, (loop_body st rc md status_ts now).metrics_queue.getLast? = some r →
          (lookup r.metrics_data "id").isSome = true)
  ∧ (∀ st : CollectorState,
      (∀ r ∈ st.metrics_queue, (lookup r.metrics_data "id").isSome = true) →
      set_metrics_go st.metrics_queue [] = (.ok (rmOfScrape st.metrics_queue), [])
      ∧ collect st = (.ok ((rmOfScrape st.metrics_queue).map fun p => p.2),
                      ⟨st.last_dish_id, []⟩)
      ∧ collect ⟨st.last_dish_id, []⟩ = (.ok [], ⟨st.last_dish_id, []⟩)) := by
  constructor
  · intro st rc md status_ts now
    unfold loop_body
    by_cases hc : rc = 0 ∧ md ≠ []
    · rw [if_pos hc]
      cases hl : lookup md "id" with
      | some idFd =>
        dsimp only
        constructor
        · simp
        · intro r hr
          rw [List.getLast?_concat] at hr
          injection hr with hr
          rw [← hr]
          dsimp only
          rw [hl]
          rfl
      | none =>
        dsimp only
        constructor
        · simp
        · intro r hr
          rw [List.getLast?_concat] at hr
          injection hr with hr
          rw [← hr]
          exact fallback_hasId st.last_dish_id md now
    · rw [if_neg hc]
      dsimp only
      constructor
      · simp
      · intro r hr
        rw [List.getLast?_concat] at hr
        injection hr with hr
        rw [← hr]
        exact fallback_hasId st.last_dish_id md now
  · intro st hq
    obtain ⟨rm, hgo⟩ := set_metrics_go_ok st.metrics_queue hq []
    have hrm : rmOfScrape st.metrics_queue = rm := by
      unfold rmOfScrape
      rw [hgo]
    rw [hrm]
    refine ⟨hgo, ?_, rfl⟩
    unfold collect
    rw [hgo]

/-- Witness for C4: the producer-contract part at a concrete failed
poll, and the drain part at a queue holding one concrete well-formed
record. -/
theorem c4_drain_exactly_once_witness :
    (lookup (fallbackRecord (Value.string "Unknown") [] 13).metrics_data "id").isSome = true
  ∧ collect ⟨Value.string "Unknown",
             [(⟨[("id", ⟨Value.string "UT7", "id", "status"⟩)], 11⟩ : MetricsRecord)]⟩
      = (.ok ((rmOfScrape
            [(⟨[("id", ⟨Value.string "UT7", "id", "status"⟩)], 11⟩ : MetricsRecord)]).map
              fun p => p.2),
         ⟨Value.string "Unknown", []⟩)
  ∧ collect ⟨Value.string "Unknown", []⟩ = (.ok [], ⟨Value.string "Unknown", []⟩) :=
  ⟨(c4_drain_exactly_once.1 initState 1 [] 0 13).2
      (fallbackRecord (Value.string "Unknown") [] 13) rfl,
   (c4_drain_exactly_once.2
      ⟨Value.string "Unknown",
       [(⟨[("id", ⟨Value.string "UT7", "id", "status"⟩)], 11⟩ : MetricsRecord)]⟩
      (by decide)).2.1,
   (c4_drain_exactly_once.2
      ⟨Value.string "Unknown",
       [(⟨[("id", ⟨Value.string "UT7", "id", "status"⟩)], 11⟩ : MetricsRecord)]⟩
      (by decide)).2.2⟩

end Starlink


/-!
### Concurrent push/drain model (C10)

`queue.Queue` serializes each individual `put()`, `get()` and `empty()`
under its internal mutex, so an execution of the Producer concurrently
with the Collector's drain loop (`while not q.empty(): q.get()`) is an
interleaving of these atomic operations.  `DrainModel` embeds that
interleaving as a step relation: `push` is the Producer's `put`;
`beginDrain` marks the drain loop starting; `take` is one
`empty()`-returns-false-then-`get()` iteration; `endDrain` is the final
`empty()` call returning true, which terminates the loop and completes
the drain.  Drains are serialized (one scrape at a time), matching the
claim's framing of "the in-progress drain" and "the next drain". -/

namespace DrainModel

/-- One atomic queue operation. -/
inductive QEvent (α : Type) where
  | push : α → QEvent α
  | beginDrain : QEvent α
  | take : QEvent α
  | endDrain : QEvent α
deriving DecidableEq

/-- The shared state: the FIFO queue, whether a drain loop is running,
the records the running drain has taken so far, and the completed
drains. -/
structure QState (α : Type) where
  queue : List α
  draining : Bool
  cur : List α
  drains : List (List α)
deriving DecidableEq

/-- One interleaved step; `Option.none` when the event is not enabled in
this state (`take` needs a running drain and a nonempty queue — the
`empty()` check returned false; `endDrain` needs the `empty()` check to
return true). -/
def qstep {α : Type} (s : QState α) : QEvent α → Option (QState α)
  | .push r => some { s with queue := s.queue ++ [r] }
  | .beginDrain => if s.draining then Option.none else some { s with draining := true }
  | .take =>
    if s.draining then
      match s.queue with
      | [] => Option.none
      | r :: rest => some { s with queue := rest, cur := s.cur ++ [r] }
    else Option.none
  | .endDrain =>
    if s.draining ∧ s.queue.isEmpty then
      some { s with draining := false, cur := [], drains := s.drains ++ [s.cur] }
    else Option.none

/-- Run a trace of events from a state. -/
def run {α : Type} : QState α → List (QEvent α) → Option (QState α)
  | s, [] => some s
  | s, e :: es =>
    match qstep s e with
    | some s2 => run s2 es
    | Option.none => Option.none

/-- The records pushed by a trace, in order. -/
def pushed {α : Type} : List (QEvent α) → List α
  | [] => []
  | .push r :: es => r :: pushed es
  | .beginDrain :: es => pushed es
  | .take :: es => pushed es
  | .endDrain :: es => pushed es

/-- An event that is not a drain boundary (a Producer push or a drain
iteration). -/
def interior {α : Type} : QEvent α → Prop
  | .beginDrain => False
  | .endDrain => False
  | _ => True

theorem run_conservation {α : Type} :
    ∀ (t : List (QEvent α)) (s0 s1 : QState α), run s0 t = some s1 →
      s1.drains.flatten ++ s1.cur ++ s1.queue
        = s0.drains.flatten ++ s0.cur ++ s0.queue ++ pushed t := by
  intro t
  induction t with
  | nil =>
    intro s0 s1 h
    injection h with h
    rw [← h, pushed]
    simp
  | cons e es ih =>
    intro s0 s1 h
    cases e with
    | push r =>
      have h2 : run { s0 with queue := s0.queue ++ [r] } es = some s1 := h
      rw [ih _ _ h2]
      simp [pushed]
    | beginDrain =>
      rw [run] at h
      by_cases hd : s0.draining = true
      · rw [qstep, if_pos hd] at h
        cases h
      · rw [qstep, if_neg hd] at h
        have h2 : run { s0 with draining := true } es = some s1 := h
        rw [ih _ _ h2, pushed]
    | take =>
      rw [run] at h
      by_cases hd : s0.draining = true
      · rw [qstep, if_pos hd] at h
        cases hq : s0.queue with
        | nil => rw [hq] at h; cases h
        | cons r rest =>
          rw [hq] at h
          have h2 : run { s0 with queue := rest, cur := s0.cur ++ [r] } es = some s1 := h
          rw [ih _ _ h2]
          simp [pushed, hq]
      · rw [qstep, if_neg hd] at h
        cases h
    | endDrain =>
      rw [run] at h
      by_cases hd : s0.draining = true ∧ s0.queue.isEmpty = true
      · rw [qstep, if_pos hd] at h
        have h2 : run { s0 with draining := false, cur := [], drains := s0.drains ++ [s0.cur] } es = some s1 := h
        rw [ih _ _ h2]
        have hqe : s0.queue = [] := List.isEmpty_iff.1 hd.2
        simp [pushed, hqe]
      · rw [qstep, if_neg hd] at h
        cases h

theorem run_interior {α : Type} :
    ∀ (t : List (QEvent α)) (s0 s1 : QState α), (∀ e ∈ t, interior e) →
      run s0 t = some s1 →
      s1.drains = s0.drains ∧ s1.draining = s0.draining
        ∧ s1.cur ++ s1.queue = s0.cur ++ s0.queue ++ pushed t := by
  intro t
  induction t with
  | nil =>
    intro s0 s1 _ h
    injection h with h
    rw [← h, pushed]
    simp
  | cons e es ih =>
    intro s0 s1 hint h
    cases e with
    | push r =>
      have h2 : run { s0 with queue := s0.queue ++ [r] } es = some s1 := h
      obtain ⟨d1, d2, d3⟩ := ih _ _ (fun x hx => hint x (List.mem_cons_of_mem _ hx)) h2
      refine ⟨d1, d2, ?_⟩
      rw [d3]
      simp [pushed]
    | beginDrain => exact absurd (hint _ (List.mem_cons_self _ _)) (by simp [interior])
    | endDrain => exact absurd (hint _ (List.mem_cons_self _ _)) (by simp [interior])
    | take =>
      rw [run] at h
      by_cases hd : s0.draining = true
      · rw [qstep, if_pos hd] at h
        cases hq : s0.queue with
        | nil => rw [hq] at h; cases h
        | cons r rest =>
          rw [hq] at h
          have h2 : run { s0 with queue := rest, cur := s0.cur ++ [r] } es = some s1 := h
          obtain ⟨d1, d2, d3⟩ := ih _ _ (fun x hx => hint x (List.mem_cons_of_mem _ hx)) h2
          refine ⟨d1, d2, ?_⟩
          rw [d3]
          simp [pushed, hq]
      · rw [qstep, if_neg hd] at h
        cases h

/-- C10: under the interleaved model of atomic queue operations,
(1) conservation: after any valid trace from the initial state, the
completed drains, the running drain and the queue jointly list exactly
the pushed records in order — no record is ever lost or duplicated; and
(2) batch atomicity: when a drain is in progress and records are pushed
before its final empty-check (interleaved arbitrarily with its `get`
iterations), completing the drain delivers the drain-start backlog plus
every one of those records in that single drain — the whole concurrent
batch lands in the in-progress drain, never split across drains. -/
theorem c10_drain_atomic_no_loss {α : Type} :
    (∀ (t : List (QEvent α)) (s1 : QState α),
      run ⟨[], false, [], []⟩ t = some s1 →
      s1.drains.flatten ++ s1.cur ++ s1.queue = pushed t)
  ∧ (∀ (t : List (QEvent α)) (s0 s1 s2 : QState α),
      s0.draining = true → (∀ e ∈ t, interior e) → run s0 t = some s1 →
      qstep s1 QEvent.endDrain = some s2 →
      s2.drains = s1.drains ++ [s0.cur ++ s0.queue ++ pushed t]
      ∧ ∀ r ∈ pushed t, r ∈ s0.cur ++ s0.queue ++ pushed t) := by
  constructor
  · intro t s1 h
    have h2 := run_conservation t _ _ h
    simpa using h2
  · intro t s0 s1 s2 hdr hint hrun hend
    obtain ⟨d1, d2, d3⟩ := run_interior t s0 s1 hint hrun
    rw [qstep] at hend
    by_cases hd : s1.draining = true ∧ s1.queue.isEmpty = true
    · rw [if_pos hd] at hend
      injection hend with hend
      constructor
      · rw [← hend]
        dsimp only
        rw [d1]
        have hcur : s1.cur = s0.cur ++ s0.queue ++ pushed t := by
          have h3 := d3
          rw [List.isEmpty_iff.1 hd.2] at h3
          simpa using h3
        rw [hcur]
      · intro r hr
        simp [hr]
    · rw [if_neg hd] at hend
      cases hend

/-- Witness for C10: a concrete interleaving — the queue holds `"A"`
when the drain begins; `"B1"` and `"B2"` are pushed while it runs; the
completed drain contains all of them, exactly once. -/
theorem c10_drain_atomic_no_loss_witness :
    run (⟨["A"], true, [], []⟩ : QState String)
        [QEvent.take, QEvent.push "B1", QEvent.take, QEvent.push "B2", QEvent.take]
      = some ⟨[], true, ["A", "B1", "B2"], []⟩
  ∧ (⟨[], false, [], [["A", "B1", "B2"]]⟩ : QState String).drains
      = [] ++ [[] ++ ["A"] ++ pushed [QEvent.take, QEvent.push "B1", QEvent.take,
                                      QEvent.push "B2", QEvent.take]] :=
  ⟨rfl,
   ((c10_drain_atomic_no_loss.2
      [QEvent.take, QEvent.push "B1", QEvent.take, QEvent.push "B2", QEvent.take]
      ⟨["A"], true, [], []⟩ ⟨[], true, ["A", "B1", "B2"], []⟩
      ⟨[], false, [], [["A", "B1", "B2"]]⟩
      rfl (by intro e he; fin_cases he <;> trivial) rfl (by decide)).1)⟩

end DrainModel
